import Mathlib

/-!
Verification of the cognitive core (memory.cpp / persona_system.cpp).

Shallow embedding conventions:
* C++ `double` is modelled as `ℚ`.  Every routine that calls `std::exp` takes
  the exponential as an explicit parameter `E : ℚ → ℚ`; theorems that depend on
  actual values of `exp` carry the relevant bracketing facts (all satisfied by
  the real exponential) as hypotheses, and concrete evaluations instantiate `E`
  with a rational stand-in that agrees with those facts at the arguments used.
* `std::chrono::system_clock::time_point` is modelled as `ℤ` (seconds);
  `duration_cast<std::chrono::hours>(a - b).count()` truncates toward zero,
  i.e. `(a - b).tdiv 3600`.
* `std::map<K,V>` is modelled as an association list `List (K × V)`
  (`lookupKey` = `find`, `setKey` = `operator[]=`); the sums and membership
  tests taken over maps in the C++ are order-independent.
* The database collaborator is external: a write is modelled by a boolean
  `dbOk` saying whether the persistence call succeeded.
-/

/-- `m.find(k)` on an association list. -/
def lookupKey {α : Type} : List (String × α) → String → Option α
  | [], _ => none
  | (k, v) :: rest, key => if k = key then some v else lookupKey rest key

/-- `m[k] = v` on an association list: replace in place, else append. -/
def setKey {α : Type} : List (String × α) → String → α → List (String × α)
  | [], key, v => [(key, v)]
  | (k, w) :: rest, key, v =>
    if k = key then (key, v) :: rest else (k, w) :: setKey rest key v

/-- `duration_cast<hours>(now - start).count()` (C++ truncates toward zero). -/
def hoursBetween (now start : ℤ) : ℤ := (now - start).tdiv 3600

/-- `MemoryEvent` (memory.hpp): the fields the core reads and writes. -/
structure MemoryEvent where
  id : String
  content : String
  importance : ℚ
  emotional_weight : ℚ
  trait_influences : List (String × ℚ)
  tags : List String
deriving DecidableEq

/-- `EmotionalResonance`: transient trigger state (memory.cpp usage). -/
structure EmotionalResonance where
  Trigger : String
  Intensity : ℚ
  Duration : ℚ
  StartTime : ℤ
  PeakTime : ℤ
  AssociatedMemories : List String
deriving DecidableEq

/-- `EmotionalPattern`: durable pattern promoted from a resonance. -/
structure EmotionalPattern where
  PatternType : String
  BaseIntensity : ℚ
  CurrentIntensity : ℚ
  LastTriggered : ℤ
  PatternMemories : List MemoryEvent
deriving DecidableEq

/-- `MemoryConnection` as built by `UpdateMemoryAssociations` (ids as keys). -/
structure MemoryConnection where
  SourceMemory : String
  TargetMemory : String
  Strength : ℚ
  ConnectionType : String
  SharedTraits : List String
deriving DecidableEq

/-- A growth pattern of `context.Evolution.GrowthPatterns` (member
`UpdateEmotionalPatterns`). -/
structure GrowthPattern where
  TriggeringEvents : List String
  Strength : ℚ
deriving DecidableEq

/-- The per-session `MemoryContext` slice touched by the verified routines. -/
structure MemoryContext where
  ActiveResonances : List EmotionalResonance
  EmotionalPatterns : List EmotionalPattern
  ShortTermMemories : List MemoryEvent
  MemoryConnections : List MemoryConnection
  memory_index : List (String × MemoryEvent)
  clusters : List (List MemoryEvent)
  GrowthPatterns : List GrowthPattern
deriving DecidableEq

/-- `MemoryManager` state: `is_initialized_`, `memories_`, the recency cache
(`memory_cache_`, entries carry `last_accessed`), `maxCacheSize_` and the
`"default"` session context. -/
structure MMState where
  inited : Bool
  memories : List (String × MemoryEvent)
  memory_cache : List (String × ℤ)
  maxCacheSize : Nat
  context : MemoryContext
deriving DecidableEq

/-- One tick of decay: `Intensity *= exp(-0.1 * hoursSinceStart)`. -/
def decayResonance (E : ℚ → ℚ) (now : ℤ) (r : EmotionalResonance) : EmotionalResonance :=
  { r with Intensity := r.Intensity * E (-(1 / 10) * (hoursBetween now r.StartTime : ℚ)) }

/-- The pattern built inside `UpdateEmotionalPatterns` from an expiring
resonance `r` (its intensity already decayed this tick): the pattern type is
the resonance's trigger, and each associated memory content pulls in the first
short-term memory with equal content. -/
def emitPattern (now : ℤ) (shortTerm : List MemoryEvent) (r : EmotionalResonance) :
    EmotionalPattern :=
  { PatternType := r.Trigger
    BaseIntensity := r.Intensity
    CurrentIntensity := r.Intensity
    LastTriggered := now
    PatternMemories :=
      r.AssociatedMemories.filterMap (fun c => shortTerm.find? (fun m => m.content == c)) }

/-- Loop body of `UpdateEmotionalPatterns` (memory.cpp:580-612): decay the
resonance, then, if the decayed intensity fell below 0.1 and also exceeds 0.5,
append one emotional pattern. -/
def uepStep (E : ℚ → ℚ) (now : ℤ) (shortTerm : List MemoryEvent)
    (acc : List EmotionalResonance × List EmotionalPattern) (r : EmotionalResonance) :
    List EmotionalResonance × List EmotionalPattern :=
  let r' := decayResonance E now r
  let pats :=
    if r'.Intensity < 1 / 10 then
      if r'.Intensity > 1 / 2 then acc.2 ++ [emitPattern now shortTerm r'] else acc.2
    else acc.2
  (acc.1 ++ [r'], pats)

/-- Free function `UpdateEmotionalPatterns(sessionID)` (memory.cpp:575-621):
process every active resonance, then erase those with intensity `< 0.1`. -/
def updateEmotionalPatternsFree (E : ℚ → ℚ) (now : ℤ) (ctx : MemoryContext) :
    MemoryContext :=
  let res := ctx.ActiveResonances.foldl (uepStep E now ctx.ShortTermMemories)
    ([], ctx.EmotionalPatterns)
  { ctx with
    ActiveResonances := res.1.filter (fun r => !decide (r.Intensity < 1 / 10))
    EmotionalPatterns := res.2 }

lemma uep_fold_spec (E : ℚ → ℚ) (now : ℤ) (shortTerm : List MemoryEvent)
    (l : List EmotionalResonance) (a : List EmotionalResonance) (p : List EmotionalPattern) :
    l.foldl (uepStep E now shortTerm) (a, p)
      = (a ++ l.map (decayResonance E now),
         p ++ l.filterMap (fun r =>
           let r' := decayResonance E now r
           if r'.Intensity < 1 / 10 ∧ 1 / 2 < r'.Intensity then
             some (emitPattern now shortTerm r')
           else none)) := by
  induction l generalizing a p with
  | nil => simp
  | cons r rest ih =>
    simp only [List.foldl_cons, List.map_cons, List.filterMap_cons, uepStep]
    by_cases h1 : (decayResonance E now r).Intensity < 1 / 10
    · by_cases h2 : (decayResonance E now r).Intensity > 1 / 2
      · rw [if_pos h1, if_pos h2, ih, if_pos ⟨h1, h2⟩]
        simp
      · rw [if_pos h1, if_neg h2, ih, if_neg (fun hc => h2 hc.2)]
        simp
    · rw [if_neg h1, ih, if_neg (fun hc => h1 hc.1)]
      simp

lemma uep_characterization (E : ℚ → ℚ) (now : ℤ) (ctx : MemoryContext) :
    (updateEmotionalPatternsFree E now ctx).EmotionalPatterns
        = ctx.EmotionalPatterns ++ ctx.ActiveResonances.filterMap (fun r =>
            let r' := decayResonance E now r
            if r'.Intensity < 1 / 10 ∧ 1 / 2 < r'.Intensity then
              some (emitPattern now ctx.ShortTermMemories r')
            else none)
      ∧ (updateEmotionalPatternsFree E now ctx).ActiveResonances
        = (ctx.ActiveResonances.map (decayResonance E now)).filter
            (fun r => !decide (r.Intensity < 1 / 10)) := by
  unfold updateEmotionalPatternsFree
  rw [uep_fold_spec]
  simp

/-- The emission guard `Intensity < 0.1 && Intensity > 0.5` can never hold. -/
lemma emission_guard_unsat (x : ℚ) : ¬ (x < 1 / 10 ∧ 1 / 2 < x) := by
  rintro ⟨h1, h2⟩
  have : (1 / 2 : ℚ) < 1 / 10 := h2.trans h1
  norm_num at this

lemma emit_filterMap_nil (E : ℚ → ℚ) (now : ℤ) (st : List MemoryEvent)
    (l : List EmotionalResonance) :
    l.filterMap (fun r =>
      let r' := decayResonance E now r
      if r'.Intensity < 1 / 10 ∧ 1 / 2 < r'.Intensity then
        some (emitPattern now st r')
      else none) = [] := by
  induction l with
  | nil => rfl
  | cons r rest ih =>
    simp only [List.filterMap_cons]
    rw [if_neg (emission_guard_unsat _)]
    exact ih

lemma uep_patterns_unchanged (E : ℚ → ℚ) (now : ℤ) (ctx : MemoryContext) :
    (updateEmotionalPatternsFree E now ctx).EmotionalPatterns = ctx.EmotionalPatterns := by
  rcases uep_characterization E now ctx with ⟨h, -⟩
  rw [h, emit_filterMap_nil, List.append_nil]

/-- C1: in the emotional-pattern tick, a resonance whose post-decay (terminal)
intensity dropped below 0.1 contributes exactly one appended pattern — whose
pattern type is the resonance's trigger — precisely when that terminal
intensity also exceeds 0.5, and it is removed; a resonance removed without
that terminal significance contributes no pattern.  (As the two conditions are
mutually exclusive, the positive branch never fires; the characterization
below states the code's behaviour for both branches.) -/
theorem resonance_terminal_significance_pattern_emission
    (E : ℚ → ℚ) (now : ℤ) (ctx : MemoryContext) :
    (updateEmotionalPatternsFree E now ctx).EmotionalPatterns
        = ctx.EmotionalPatterns ++ ctx.ActiveResonances.filterMap (fun r =>
            let r' := decayResonance E now r
            if r'.Intensity < 1 / 10 ∧ 1 / 2 < r'.Intensity then
              some (emitPattern now ctx.ShortTermMemories r')
            else none)
      ∧ (updateEmotionalPatternsFree E now ctx).ActiveResonances
        = (ctx.ActiveResonances.map (decayResonance E now)).filter
            (fun r => !decide (r.Intensity < 1 / 10))
      ∧ (∀ st r, (emitPattern now st r).PatternType = r.Trigger) := by
  rcases uep_characterization E now ctx with ⟨h1, h2⟩
  exact ⟨h1, h2, fun _ _ => rfl⟩

lemma double_decay_filter {α : Type} (d : α → α) (q : α → Bool) (l : List α) :
    (((l.map d).filter q).map d).filter q
      = l.filterMap (fun r =>
          if q (d r) then (if q (d (d r)) then some (d (d r)) else none) else none) := by
  induction l with
  | nil => rfl
  | cons r rest ih =>
    simp only [List.map_cons, List.filter_cons, List.filterMap_cons]
    cases h1 : q (d r) with
    | false => simp [h1, ih]
    | true =>
      cases h2 : q (d (d r)) with
      | false => simp [h1, h2, ih]
      | true => simp [h1, h2, ih]

/-- C9 (amended): the sweep is tick-multiplicative, not idempotent.  Running
`UpdateEmotionalPatterns` twice at the same instant applies the decay factor
`exp(-0.1 * hoursSinceStart)` to each surviving resonance a second time (the
start time is unchanged, so the same factor multiplies the intensity again and
the 0.1 removal floor is re-checked against the re-decayed value), while the
emitted pattern list is unchanged by either run because the emission guard
never fires. -/
theorem resonance_sweep_double_decay (E : ℚ → ℚ) (now : ℤ) (ctx : MemoryContext) :
    (updateEmotionalPatternsFree E now (updateEmotionalPatternsFree E now ctx)).ActiveResonances
        = ctx.ActiveResonances.filterMap (fun r =>
            if !decide ((decayResonance E now r).Intensity < 1 / 10) then
              if !decide ((decayResonance E now (decayResonance E now r)).Intensity < 1 / 10) then
                some (decayResonance E now (decayResonance E now r))
              else none
            else none)
      ∧ (updateEmotionalPatternsFree E now (updateEmotionalPatternsFree E now ctx)).EmotionalPatterns
        = ctx.EmotionalPatterns
      ∧ (updateEmotionalPatternsFree E now ctx).EmotionalPatterns = ctx.EmotionalPatterns := by
  refine ⟨?_, ?_, uep_patterns_unchanged E now ctx⟩
  · rw [(uep_characterization E now (updateEmotionalPatternsFree E now ctx)).2,
      (uep_characterization E now ctx).2]
    exact double_decay_filter (decayResonance E now) (fun r => !decide (r.Intensity < 1 / 10))
      ctx.ActiveResonances
  · rw [uep_patterns_unchanged, uep_patterns_unchanged]

/-- Rational stand-in for `std::exp` at the single argument the C9
counterexample evaluates: both sweeps compute `exp(-0.1 * 10) = exp(-1)`, and
`46/125 = 0.368` sits in the interval `(1/3, 1)` that the true `exp(-1) ≈
0.36788` occupies; any value in that interval produces the same run of the
sweep (kept after one run, kept with a strictly smaller intensity after two). -/
def expProbe : ℚ → ℚ := fun _ => 46 / 125

def resonance9 : EmotionalResonance :=
  { Trigger := "grief", Intensity := 9 / 10, Duration := 1, StartTime := 0,
    PeakTime := 3600, AssociatedMemories := [] }

def ctx9 : MemoryContext :=
  { ActiveResonances := [resonance9], EmotionalPatterns := [], ShortTermMemories := [],
    MemoryConnections := [], memory_index := [], clusters := [], GrowthPatterns := [] }

/-- C9 counterexample: a single resonance of intensity 0.9 started 10 hours
ago.  One sweep leaves intensity `0.9 * E(-1)`; a second back-to-back sweep at
the same instant multiplies by `E(-1)` again, so the state after two runs
differs from the state after one — refuting "running the sweep twice
back-to-back at the same instant yields the same resonance intensities". -/
theorem resonance_sweep_not_idempotent_counterexample :
    updateEmotionalPatternsFree expProbe 36000 (updateEmotionalPatternsFree expProbe 36000 ctx9)
      ≠ updateEmotionalPatternsFree expProbe 36000 ctx9 := by
  have h1 : (updateEmotionalPatternsFree expProbe 36000 ctx9).ActiveResonances
      = [{ resonance9 with Intensity := 207 / 625 }] := by
    norm_num [updateEmotionalPatternsFree, uepStep, decayResonance, ctx9, resonance9,
      hoursBetween, expProbe, List.filter]
  have h2 : (updateEmotionalPatternsFree expProbe 36000
        (updateEmotionalPatternsFree expProbe 36000 ctx9)).ActiveResonances
      = [{ resonance9 with Intensity := 9522 / 78125 }] := by
    norm_num [updateEmotionalPatternsFree, uepStep, decayResonance, ctx9, resonance9,
      hoursBetween, expProbe, List.filter]
  intro h
  rw [h, h1] at h2
  norm_num [resonance9] at h2

def emptyContext : MemoryContext := ⟨[], [], [], [], [], [], []⟩

/-- `UpdateMemoryIndex(sessionID, memory)` (memory.cpp:689-692): the session
index stores the memory under its id. -/
def updateMemoryIndexEntry (ctx : MemoryContext) (m : MemoryEvent) : MemoryContext :=
  { ctx with memory_index := setKey ctx.memory_index m.id m }

/-- Cluster banding of `UpdateMemoryCluster` (memory.cpp:694-708): join the
first non-empty cluster whose first member's emotional weight is within 0.1,
else append a new singleton cluster. -/
def addToCluster (m : MemoryEvent) : List (List MemoryEvent) → List (List MemoryEvent)
  | [] => [[m]]
  | c :: rest =>
    match c with
    | [] => [] :: addToCluster m rest
    | h :: t =>
      if |h.emotional_weight - m.emotional_weight| < 1 / 10 then ((h :: t) ++ [m]) :: rest
      else (h :: t) :: addToCluster m rest

def updateMemoryClusterFn (ctx : MemoryContext) (m : MemoryEvent) : MemoryContext :=
  { ctx with clusters := addToCluster m ctx.clusters }

/-- `SaveMemory` (memory.cpp:30-58): guard on `is_initialized_`, then the
INSERT against the persistence collaborator (`dbOk` is its outcome); only on
success are the canonical map, index and clusters touched. -/
def saveMemory (dbOk : Bool) (st : MMState) (m : MemoryEvent) : Bool × MMState :=
  if !st.inited then (false, st)
  else if !dbOk then (false, st)
  else
    let st1 := { st with memories := setKey st.memories m.id m }
    let st2 := { st1 with context := updateMemoryIndexEntry st1.context m }
    let st3 := { st2 with context := updateMemoryClusterFn st2.context m }
    (true, st3)

/-- `UpdateMemory` (memory.cpp:93-120): same shape as `SaveMemory` with an
UPDATE statement; identical in-memory effect gated on persistence success. -/
def updateMemoryFn (dbOk : Bool) (st : MMState) (m : MemoryEvent) : Bool × MMState :=
  if !st.inited then (false, st)
  else if !dbOk then (false, st)
  else
    let st1 := { st with memories := setKey st.memories m.id m }
    let st2 := { st1 with context := updateMemoryIndexEntry st1.context m }
    let st3 := { st2 with context := updateMemoryClusterFn st2.context m }
    (true, st3)

/-- C6: when the persistence write fails (`dbOk = false`), both `SaveMemory`
and `UpdateMemory` return failure and leave the canonical memory map, the
index and the clusters — the entire in-memory state — exactly as they were:
the write-through happens before any in-memory mutation. -/
theorem persistence_failure_preserves_state (st : MMState) (m : MemoryEvent) :
    saveMemory false st m = (false, st) ∧ updateMemoryFn false st m = (false, st) := by
  refine ⟨?_, ?_⟩ <;> simp [saveMemory, updateMemoryFn]

/-- Per-memory body of `UpdateMemoryWeightsWithEmotion` (memory.cpp:1192-1196):
`importance += emotional_weight * 0.5` mutates the stored entry in place (no
clamp), then `UpdateMemory` is called with its Boolean result ignored — on
persistence success it re-stores the same value and refreshes index/clusters. -/
def umweStep (dbOk : Bool) (st : MMState) (k : String) : MMState :=
  match lookupKey st.memories k with
  | none => st
  | some m =>
    let m' := { m with importance := m.importance + m.emotional_weight * (1 / 2) }
    let st1 := { st with memories := setKey st.memories k m' }
    if dbOk then
      { st1 with context := updateMemoryClusterFn (updateMemoryIndexEntry st1.context m') m' }
    else st1

/-- `UpdateMemoryWeightsWithEmotion` (memory.cpp:1189-1197). -/
def updateMemoryWeightsWithEmotion (dbOk : Bool) (st : MMState) : MMState :=
  if !st.inited then st
  else (st.memories.map Prod.fst).foldl (umweStep dbOk) st

def memC2 : MemoryEvent :=
  { id := "m1", content := "beach day", importance := 9 / 10, emotional_weight := 3 / 5,
    trait_influences := [], tags := [] }

def stC2 : MMState :=
  { inited := true, memories := [("m1", memC2)], memory_cache := [], maxCacheSize := 1000,
    context := emptyContext }

/-- C2 failing input: a memory with importance 0.9 and emotional weight 0.6.
`UpdateMemoryWeightsWithEmotion` adds `0.6 * 0.5 = 0.3` to the importance with
no clamp, leaving `1.2 ∉ [0,1]` — the stated global invariant (every bounded
field clamped into range after every mutation) is violated by the code. -/
theorem memory_importance_escapes_unit_range :
    (lookupKey (updateMemoryWeightsWithEmotion true stC2).memories "m1").map
        MemoryEvent.importance = some (6 / 5)
      ∧ ¬ ((6 : ℚ) / 5 ≤ 1) := by
  refine ⟨?_, by norm_num⟩
  norm_num [updateMemoryWeightsWithEmotion, umweStep, stC2, memC2, lookupKey, setKey,
    updateMemoryIndexEntry, updateMemoryClusterFn, addToCluster, emptyContext]

/-- Inner scan of `UpdateCache` (memory.cpp:1393-1398): walk the cache keeping
the position and last-accessed time of the least-recently-accessed entry seen
so far (strict `<`, so the earliest minimal entry wins). -/
def oldestScan : Nat → Nat × ℤ → List (String × ℤ) → Nat × ℤ
  | _, acc, [] => acc
  | i, acc, e :: rest =>
    if e.2 < acc.2 then oldestScan (i + 1) (i, e.2) rest else oldestScan (i + 1) acc rest

/-- Position of the least-recently-accessed cache entry (`oldest`). -/
def oldestIdx : List (String × ℤ) → Nat
  | [] => 0
  | e :: rest => (oldestScan 1 (0, e.2) rest).1

lemma oldestScan_fst_lt : ∀ (rest : List (String × ℤ)) (i : Nat) (acc : Nat × ℤ),
    acc.1 < i → (oldestScan i acc rest).1 < i + rest.length := by
  intro rest
  induction rest with
  | nil =>
    intro i acc h
    simpa [oldestScan] using h
  | cons e rest ih =>
    intro i acc h
    simp only [oldestScan]
    split
    · have := ih (i + 1) (i, e.2) (Nat.lt_succ_self i)
      simp only [List.length_cons]
      omega
    · have := ih (i + 1) acc (Nat.lt_succ_of_lt h)
      simp only [List.length_cons]
      omega

lemma oldestIdx_lt (c : List (String × ℤ)) (h : c ≠ []) : oldestIdx c < c.length := by
  cases c with
  | nil => exact absurd rfl h
  | cons e rest =>
    have := oldestScan_fst_lt rest 1 (0, e.2) Nat.zero_lt_one
    simp only [oldestIdx, List.length_cons]
    omega

lemma oldestScan_snd_le : ∀ (rest : List (String × ℤ)) (i : Nat) (acc : Nat × ℤ),
    (oldestScan i acc rest).2 ≤ acc.2 ∧ ∀ e ∈ rest, (oldestScan i acc rest).2 ≤ e.2 := by
  intro rest
  induction rest with
  | nil => intro i acc; exact ⟨le_refl _, by simp⟩
  | cons e rest ih =>
    intro i acc
    simp only [oldestScan]
    split
    · rename_i hlt
      rcases ih (i + 1) (i, e.2) with ⟨h1, h2⟩
      exact ⟨h1.trans (le_of_lt hlt), by
        intro e' he'
        rcases List.mem_cons.mp he' with rfl | hmem
        · exact h1
        · exact h2 e' hmem⟩
    · rename_i hge
      rcases ih (i + 1) acc with ⟨h1, h2⟩
      exact ⟨h1, by
        intro e' he'
        rcases List.mem_cons.mp he' with rfl | hmem
        · exact h1.trans (le_of_not_lt hge)
        · exact h2 e' hmem⟩

lemma oldestScan_get : ∀ (rest g : List (String × ℤ)) (i : Nat) (acc : Nat × ℤ),
    (g.get? acc.1).map Prod.snd = some acc.2 →
    (∀ j, rest.get? j = g.get? (i + j)) →
    (g.get? (oldestScan i acc rest).1).map Prod.snd = some (oldestScan i acc rest).2 := by
  intro rest
  induction rest with
  | nil => intro g i acc hacc _; simpa [oldestScan] using hacc
  | cons e rest ih =>
    intro g i acc hacc halign
    simp only [oldestScan]
    split
    · apply ih
      · have h0 := halign 0
        simp only [List.get?, Nat.add_zero] at h0
        show Option.map Prod.snd (g.get? i) = some e.2
        rw [← h0]
        rfl
      · intro j
        have hj := halign (j + 1)
        simpa [Nat.add_assoc, Nat.add_comm 1 j] using hj
    · apply ih _ _ _ hacc
      intro j
      have hj := halign (j + 1)
      simpa [Nat.add_assoc, Nat.add_comm 1 j] using hj

/-- The entry at `oldestIdx` attains the minimum last-accessed time. -/
lemma oldestIdx_min (c : List (String × ℤ)) (h : c ≠ []) :
    ∃ p, c.get? (oldestIdx c) = some p ∧ ∀ e ∈ c, p.2 ≤ e.2 := by
  cases c with
  | nil => exact absurd rfl h
  | cons e rest =>
    have hget := oldestScan_get rest (e :: rest) 1 (0, e.2) (by rfl)
      (by intro j; simp [Nat.add_comm 1 j])
    rcases hsnd : (e :: rest).get? (oldestScan 1 (0, e.2) rest).1 with _ | p
    · rw [hsnd] at hget
      exact absurd hget (by simp)
    · refine ⟨p, hsnd, ?_⟩
      rw [hsnd] at hget
      simp at hget
      rcases oldestScan_snd_le rest 1 (0, e.2) with ⟨h1, h2⟩
      intro e' he'
      rcases List.mem_cons.mp he' with rfl | hmem
      · rw [hget]; exact h1
      · rw [hget]; exact h2 e' hmem

lemma length_eraseIdx_lt {α : Type} : ∀ (l : List α) (i : Nat), i < l.length →
    (l.eraseIdx i).length < l.length := by
  intro l
  induction l with
  | nil => intro i h; simp at h
  | cons a l ih =>
    intro i h
    cases i with
    | zero => simp [List.eraseIdx]
    | succ j =>
      simp only [List.eraseIdx, List.length_cons]
      have := ih j (by simpa using Nat.lt_of_succ_lt_succ h)
      omega

/-- Eviction loop of `UpdateCache` (memory.cpp:1392-1400): while the cache
exceeds `maxCacheSize_`, erase the least-recently-accessed entry. -/
def evictLoop (max : Nat) (c : List (String × ℤ)) : List (String × ℤ) :=
  if _h : max < c.length then evictLoop max (c.eraseIdx (oldestIdx c))
  else c
termination_by c.length
decreasing_by
  exact length_eraseIdx_lt c (oldestIdx c)
    (oldestIdx_lt c (by intro hc; rw [hc] at _h; simp at _h))

/-- `UpdateCache` (memory.cpp:1388-1401). -/
def updateCache (st : MMState) : MMState :=
  if !st.inited then st
  else { st with memory_cache := evictLoop st.maxCacheSize st.memory_cache }

lemma evictLoop_length_le (max : Nat) :
    ∀ (n : Nat) (c : List (String × ℤ)), c.length ≤ n → (evictLoop max c).length ≤ max := by
  intro n
  induction n with
  | zero =>
    intro c hc
    rw [evictLoop]
    split
    · rename_i h; exact absurd h (by omega)
    · rename_i h; omega
  | succ n ih =>
    intro c hc
    rw [evictLoop]
    split
    · rename_i h
      apply ih
      have := length_eraseIdx_lt c (oldestIdx c)
        (oldestIdx_lt c (by intro hc'; rw [hc'] at h; simp at h))
      omega
    · rename_i h; omega

lemma evictLoop_idem (max : Nat) (c : List (String × ℤ)) :
    evictLoop max (evictLoop max c) = evictLoop max c := by
  rw [evictLoop]
  split
  · rename_i h
    exact absurd h (by have := evictLoop_length_le max c.length c le_rfl; omega)
  · rfl

lemma evictLoop_sublist (max : Nat) :
    ∀ (n : Nat) (c : List (String × ℤ)), c.length ≤ n → List.Sublist (evictLoop max c) c := by
  intro n
  induction n with
  | zero =>
    intro c hc
    rw [evictLoop]
    split
    · rename_i h; exact absurd h (by omega)
    · exact List.Sublist.refl c
  | succ n ih =>
    intro c hc
    rw [evictLoop]
    split
    · rename_i h
      have hidx := oldestIdx_lt c (by intro hc'; rw [hc'] at h; simp at h)
      have h1 := ih (c.eraseIdx (oldestIdx c))
        (by have := length_eraseIdx_lt c (oldestIdx c) hidx; omega)
      exact h1.trans (List.eraseIdx_sublist c (oldestIdx c))
    · exact List.Sublist.refl c

/-- C8: `UpdateCache` repeatedly erases the entry at `oldestIdx` — which
attains the minimal last-accessed time — until the cache is at or under
`maxCacheSize`, and the pass is idempotent: a second back-to-back call (no
intervening admission) changes nothing; moreover it only ever removes entries
(the result is a sublist of the original cache). -/
theorem cache_eviction_idempotent (st : MMState) :
    updateCache (updateCache st) = updateCache st
      ∧ (updateCache { st with inited := true }).memory_cache.length ≤ st.maxCacheSize
      ∧ List.Sublist (updateCache st).memory_cache st.memory_cache
      ∧ (∀ (c : List (String × ℤ)), c ≠ [] →
          ∃ p, c.get? (oldestIdx c) = some p ∧ ∀ e ∈ c, p.2 ≤ e.2) := by
  refine ⟨?_, ?_, ?_, oldestIdx_min⟩
  · cases h : st.inited with
    | false => simp [updateCache, h]
    | true => simp [updateCache, h, evictLoop_idem]
  · simp only [updateCache, Bool.not_true, Bool.false_eq_true, if_false]
    exact evictLoop_length_le _ _ _ le_rfl
  · cases h : st.inited with
    | false => simp [updateCache, h]
    | true => simp [updateCache, h, evictLoop_sublist _ _ _ le_rfl]

def cacheC8 : List (String × ℤ) := [("a", 5), ("b", 3), ("c", 9)]

/-- Witness for C8 at a concrete cache: the entry selected for eviction,
`("b", 3)`, attains the minimal last-accessed time. -/
theorem cache_eviction_idempotent_witness :
    ∃ p, cacheC8.get? (oldestIdx cacheC8) = some p ∧ ∀ e ∈ cacheC8, p.2 ≤ e.2 := by
  have h := cache_eviction_idempotent
    { inited := true, memories := [], memory_cache := cacheC8, maxCacheSize := 2,
      context := emptyContext }
  exact h.2.2.2 cacheC8 (by simp [cacheC8])

/-- Byte-wise lexicographic `<` of `std::string` (the ordering of the keys of
`memories_`, used by `mem1.first >= mem2.first`). -/
def charListLt : List Char → List Char → Bool
  | [], [] => false
  | [], _ :: _ => true
  | _ :: _, [] => false
  | a :: as, b :: bs =>
    if a.toNat < b.toNat then true else if b.toNat < a.toNat then false else charListLt as bs

def strLtb (s t : String) : Bool := charListLt s.toList t.toList

/-- Connection strength of `UpdateMemoryAssociations` (memory.cpp:1246-1262):
`(Σ over shared trait names of min(influence1, influence2)  +  number of
shared tags) / 2`. -/
def connectionStrength (m1 m2 : MemoryEvent) : ℚ :=
  let traitStrength := m1.trait_influences.foldl
    (fun acc tv =>
      match lookupKey m2.trait_influences tv.1 with
      | some v2 => acc + min tv.2 v2
      | none => acc) 0
  let tagStrength := m1.tags.foldl
    (fun acc tg => if tg ∈ m2.tags then acc + 1 else acc) (0 : ℚ)
  (traitStrength + tagStrength) / 2

/-- Inner loop over `mem2` for a fixed `mem1`: skip unless `mem1.id < mem2.id`,
record a connection when the strength exceeds the 0.3 threshold
(`ConnectionType` and `SharedTraits` are left default-constructed). -/
def innerConns (mems : List (String × MemoryEvent)) (p1 : String × MemoryEvent) :
    List MemoryConnection :=
  mems.filterMap (fun p2 =>
    if strLtb p1.1 p2.1 then
      let s := connectionStrength p1.2 p2.2
      if s > 3 / 10 then
        some { SourceMemory := p1.1, TargetMemory := p2.1, Strength := s,
               ConnectionType := "", SharedTraits := [] }
      else none
    else none)

/-- Both nested loops of `UpdateMemoryAssociations` over `memories_`. -/
def pairConnections (mems : List (String × MemoryEvent)) : List MemoryConnection :=
  mems.foldr (fun p1 acc => innerConns mems p1 ++ acc) []

/-- `UpdateMemoryAssociations` (memory.cpp:1224-1268): throws when not
initialized; otherwise clears the session's connection set and rebuilds it
from every ordered pair of stored memories. -/
def updateMemoryAssociations (st : MMState) : Except String MMState :=
  if !st.inited then Except.error "MemoryManager not initialized"
  else Except.ok
    { st with context := { st.context with MemoryConnections := pairConnections st.memories } }

/-- Modelled from the claim's words, for refinement comparison only: strength
= 0.3 per shared trait name + 0.2 per shared tag + 0.2 if the emotional
weights differ by less than 0.2. -/
def claimStrength (m1 m2 : MemoryEvent) : ℚ :=
  (3 / 10) * ((m1.trait_influences.filter
      (fun tv => (lookupKey m2.trait_influences tv.1).isSome)).length : ℚ)
    + (1 / 5) * ((m1.tags.filter (fun tg => decide (tg ∈ m2.tags))).length : ℚ)
    + (if |m1.emotional_weight - m2.emotional_weight| < 1 / 5 then 1 / 5 else 0)

lemma innerConns_strength (mems : List (String × MemoryEvent)) (p1 : String × MemoryEvent)
    (c : MemoryConnection) (hc : c ∈ innerConns mems p1) : 3 / 10 < c.Strength := by
  rcases List.mem_filterMap.mp hc with ⟨p2, -, heq⟩
  by_cases h1 : strLtb p1.1 p2.1
  · rw [if_pos h1] at heq
    by_cases h2 : connectionStrength p1.2 p2.2 > 3 / 10
    · rw [if_pos h2] at heq
      cases heq
      exact h2
    · rw [if_neg h2] at heq
      cases heq
  · rw [if_neg h1] at heq
    cases heq

lemma foldr_innerConns_strength (mems : List (String × MemoryEvent)) :
    ∀ (l : List (String × MemoryEvent)) (c : MemoryConnection),
      c ∈ l.foldr (fun p1 acc => innerConns mems p1 ++ acc) [] → 3 / 10 < c.Strength := by
  intro l
  induction l with
  | nil => intro c hc; simp at hc
  | cons p rest ih =>
    intro c hc
    rw [List.foldr_cons] at hc
    rcases List.mem_append.mp hc with h | h
    · exact innerConns_strength _ _ _ h
    · exact ih c h

lemma pairConnections_strength (mems : List (String × MemoryEvent)) (c : MemoryConnection)
    (hc : c ∈ pairConnections mems) : 3 / 10 < c.Strength :=
  foldr_innerConns_strength mems mems c hc

def memA : MemoryEvent :=
  { id := "a", content := "memory A", importance := 1 / 2, emotional_weight := 3 / 5,
    trait_influences := [("trust", 1 / 2)], tags := ["x"] }

def memB : MemoryEvent :=
  { id := "b", content := "memory B", importance := 1 / 2, emotional_weight := 13 / 20,
    trait_influences := [("trust", 2 / 5)], tags := ["x"] }

def stC7 : MMState :=
  { inited := true, memories := [("a", memA), ("b", memB)], memory_cache := [],
    maxCacheSize := 1000, context := emptyContext }

def stC7ok : MMState :=
  { stC7 with context := { stC7.context with MemoryConnections := pairConnections stC7.memories } }

def connAB : MemoryConnection :=
  { SourceMemory := "a", TargetMemory := "b", Strength := 7 / 10, ConnectionType := "",
    SharedTraits := [] }

/-- C7 (amended): the prior connection set is discarded wholesale (the result
does not depend on it); every rebuilt connection exceeds the 0.3 threshold,
with strength `(Σ shared-trait min influence + shared-tag count)/2` — for the
spec's own scenario (shared trait trust 0.5/0.4, shared tag x) that yields the
single connection of strength `(0.4 + 1)/2 = 0.7 ≥ 0.7`; emotional-weight
proximity plays no role in this routine. -/
theorem memory_associations_replacement_semantics (st : MMState)
    (conns : List MemoryConnection) :
    updateMemoryAssociations
        { st with context := { st.context with MemoryConnections := conns } }
      = updateMemoryAssociations st
    ∧ (∀ st' c, updateMemoryAssociations st = Except.ok st' →
        c ∈ st'.context.MemoryConnections → 3 / 10 < c.Strength)
    ∧ (updateMemoryAssociations stC7).map (fun s => s.context.MemoryConnections)
        = Except.ok [connAB]
    ∧ (7 : ℚ) / 10 ≥ 7 / 10 := by
  refine ⟨?_, ?_, ?_, le_refl _⟩
  · cases h : st.inited <;> simp [updateMemoryAssociations, h]
  · intro st' c hok hc
    unfold updateMemoryAssociations at hok
    cases h : st.inited with
    | false => rw [h] at hok; simp at hok
    | true =>
      rw [h] at hok
      simp only [Bool.not_true, Bool.false_eq_true, if_false, Except.ok.injEq] at hok
      subst hok
      exact pairConnections_strength _ _ hc
  · have hlt : strLtb "a" "b" = true := by decide
    have hnlt1 : strLtb "a" "a" = false := by decide
    have hnlt2 : strLtb "b" "a" = false := by decide
    have hnlt3 : strLtb "b" "b" = false := by decide
    norm_num [updateMemoryAssociations, stC7, pairConnections, innerConns, connectionStrength,
      memA, memB, lookupKey, connAB, hlt, hnlt1, hnlt2, hnlt3, List.filterMap_cons,
      Except.map, emptyContext]

/-- Witness for C7's amended theorem: the scenario connection is produced by
the association pass and its strength clears the 0.3 threshold. -/
theorem memory_associations_threshold_witness : (3 : ℚ) / 10 < connAB.Strength := by
  have h := (memory_associations_replacement_semantics stC7 []).2.1 stC7ok connAB rfl
  apply h
  have hlt : strLtb "a" "b" = true := by decide
  have hnlt1 : strLtb "a" "a" = false := by decide
  have hnlt2 : strLtb "b" "a" = false := by decide
  have hnlt3 : strLtb "b" "b" = false := by decide
  norm_num [stC7ok, stC7, pairConnections, innerConns, connectionStrength,
    memA, memB, lookupKey, connAB, hlt, hnlt1, hnlt2, hnlt3, List.filterMap_cons]

def memC : MemoryEvent :=
  { id := "a", content := "memory C", importance := 1 / 2, emotional_weight := 0,
    trait_influences := [], tags := ["x"] }

def memD : MemoryEvent :=
  { id := "b", content := "memory D", importance := 1 / 2, emotional_weight := 9 / 10,
    trait_influences := [], tags := ["x"] }

def stC7x : MMState :=
  { inited := true, memories := [("a", memC), ("b", memD)], memory_cache := [],
    maxCacheSize := 1000, context := emptyContext }

/-- C7 counterexample: two memories sharing one tag, no traits, emotional
weights 0 and 0.9.  The claim's formula gives strength 0.2 ≤ 0.3, hence no
connection; the code computes `(0 + 1)/2 = 0.5 > 0.3` and records one —
refuting the claimed 0.3/0.2/0.2 strength formula for this routine. -/
theorem memory_associations_strength_counterexample :
    (updateMemoryAssociations stC7x).map (fun s => s.context.MemoryConnections.length)
        = Except.ok 1
      ∧ claimStrength memC memD = 1 / 5
      ∧ ¬ ((1 : ℚ) / 5 > 3 / 10) := by
  refine ⟨?_, ?_, by norm_num⟩
  · have hlt : strLtb "a" "b" = true := by decide
    have hnlt1 : strLtb "a" "a" = false := by decide
    have hnlt2 : strLtb "b" "a" = false := by decide
    have hnlt3 : strLtb "b" "b" = false := by decide
    norm_num [updateMemoryAssociations, stC7x, pairConnections, innerConns, connectionStrength,
      memC, memD, lookupKey, hlt, hnlt1, hnlt2, hnlt3, List.filterMap_cons,
      Except.map, emptyContext]
  · norm_num [claimStrength, memC, memD, lookupKey]
    rw [abs_of_nonneg] <;> norm_num

/-- The slice of `TraitBaseline` that `CalculateTraitConfidence` reads. -/
structure TraitBaselineB where
  SupportingMemories : List String
  ConflictingMemories : List String
deriving DecidableEq

/-- The slice of `TraitEvolutionMetrics` that `CalculateTraitConfidence` reads. -/
structure TraitMetricsB where
  Volatility : ℚ
  LongTermTrend : ℚ
deriving DecidableEq

/-- `CalculateTraitConfidence` (memory.cpp:790-804): the unclamped weighted
sum `(1 - volatility)*0.4 + (s/(s + c + 1))*0.3 + exp(-|longTermTrend|)*0.3`. -/
def calculateTraitConfidence (E : ℚ → ℚ) (b : TraitBaselineB) (m : TraitMetricsB) : ℚ :=
  let consistencyScore := 1 - m.Volatility
  let memorySupportScore := (b.SupportingMemories.length : ℚ) /
    ((b.SupportingMemories.length : ℚ) + (b.ConflictingMemories.length : ℚ) + 1)
  let trendConfidence := E (-|m.LongTermTrend|)
  consistencyScore * (4 / 10) + memorySupportScore * (3 / 10) + trendConfidence * (3 / 10)

def clamp01 (x : ℚ) : ℚ := min 1 (max 0 x)

lemma clamp01_eq_self (x : ℚ) (h0 : 0 ≤ x) (h1 : x ≤ 1) : clamp01 x = x := by
  unfold clamp01
  rw [max_eq_right h0, min_eq_right h1]

/-- Modelled from the claim's words, for refinement comparison only: the same
weighted sum with each of the three sub-terms clamped to [0,1] first. -/
def claimTraitConfidence (E : ℚ → ℚ) (b : TraitBaselineB) (m : TraitMetricsB) : ℚ :=
  clamp01 (1 - m.Volatility) * (4 / 10)
    + clamp01 ((b.SupportingMemories.length : ℚ) /
        ((b.SupportingMemories.length : ℚ) + (b.ConflictingMemories.length : ℚ) + 1)) * (3 / 10)
    + clamp01 (E (-|m.LongTermTrend|)) * (3 / 10)

/-- Rational stand-in for `std::exp` used only at argument 0 (`exp 0 = 1`). -/
def expStubOne : ℚ → ℚ := fun _ => 1

/-- C5 counterexample: volatility 2, trend 0, no supporting or conflicting
memories.  The code computes `(1-2)*0.4 + 0 + 1*0.3 = -0.1`, which differs
from the claimed clamped value `0.3` and falls outside [0,1]: no sub-term
clamping happens in `CalculateTraitConfidence`. -/
theorem trait_confidence_clamping_counterexample :
    calculateTraitConfidence expStubOne ⟨[], []⟩ ⟨2, 0⟩ = -1 / 10
      ∧ claimTraitConfidence expStubOne ⟨[], []⟩ ⟨2, 0⟩ = 3 / 10
      ∧ ¬ (0 ≤ calculateTraitConfidence expStubOne ⟨[], []⟩ ⟨2, 0⟩) := by
  refine ⟨?_, ?_, ?_⟩
  · norm_num [calculateTraitConfidence, expStubOne]
  · norm_num [claimTraitConfidence, clamp01, expStubOne]
  · norm_num [calculateTraitConfidence, expStubOne]

/-- C5 (amended): the computed confidence is the unclamped weighted sum; it
agrees with the claimed sub-term-clamped formula — and lies in [0,1] — as long
as volatility is already in [0,1] and the exponential term is in (0,1] (both
clamps are then no-ops; the support ratio is always in [0,1]); volatility
above 1 drives the result negative (see the counterexample). -/
theorem trait_confidence_unclamped_bounds (E : ℚ → ℚ) (b : TraitBaselineB) (m : TraitMetricsB)
    (hv0 : 0 ≤ m.Volatility) (hv1 : m.Volatility ≤ 1)
    (hE0 : 0 < E (-|m.LongTermTrend|)) (hE1 : E (-|m.LongTermTrend|) ≤ 1) :
    calculateTraitConfidence E b m = claimTraitConfidence E b m
      ∧ 0 ≤ calculateTraitConfidence E b m
      ∧ calculateTraitConfidence E b m ≤ 1 := by
  have hs0 : (0 : ℚ) ≤ (b.SupportingMemories.length : ℚ) := by positivity
  have hc0 : (0 : ℚ) ≤ (b.ConflictingMemories.length : ℚ) := by positivity
  have hden : (0 : ℚ) < (b.SupportingMemories.length : ℚ)
      + (b.ConflictingMemories.length : ℚ) + 1 := by linarith
  have hsupp0 : 0 ≤ (b.SupportingMemories.length : ℚ) /
      ((b.SupportingMemories.length : ℚ) + (b.ConflictingMemories.length : ℚ) + 1) :=
    div_nonneg hs0 hden.le
  have hsupp1 : (b.SupportingMemories.length : ℚ) /
      ((b.SupportingMemories.length : ℚ) + (b.ConflictingMemories.length : ℚ) + 1) ≤ 1 :=
    (div_le_one hden).mpr (by linarith)
  simp only [calculateTraitConfidence, claimTraitConfidence]
  rw [clamp01_eq_self _ (by linarith) (by linarith),
    clamp01_eq_self _ hsupp0 hsupp1,
    clamp01_eq_self _ hE0.le hE1]
  refine ⟨rfl, ?_, ?_⟩
  · have t1 : 0 ≤ (1 - m.Volatility) * (4 / 10) := by nlinarith
    have t2 : 0 ≤ (b.SupportingMemories.length : ℚ) /
        ((b.SupportingMemories.length : ℚ) + (b.ConflictingMemories.length : ℚ) + 1)
          * (3 / 10) := by nlinarith
    have t3 : 0 ≤ E (-|m.LongTermTrend|) * (3 / 10) := by nlinarith
    linarith
  · have t1 : (1 - m.Volatility) * (4 / 10) ≤ 4 / 10 := by nlinarith
    have t2 : (b.SupportingMemories.length : ℚ) /
        ((b.SupportingMemories.length : ℚ) + (b.ConflictingMemories.length : ℚ) + 1)
          * (3 / 10) ≤ 3 / 10 := by nlinarith
    have t3 : E (-|m.LongTermTrend|) * (3 / 10) ≤ 3 / 10 := by nlinarith
    linarith

/-- Witness for C5's amended theorem at volatility 0, trend 0, one supporting
memory: the hypotheses hold and the confidence is `0.4 + 0.15 + 0.3 = 0.85`. -/
theorem trait_confidence_unclamped_bounds_witness :
    calculateTraitConfidence expStubOne ⟨["m1"], []⟩ ⟨0, 0⟩
        = claimTraitConfidence expStubOne ⟨["m1"], []⟩ ⟨0, 0⟩
      ∧ 0 ≤ calculateTraitConfidence expStubOne ⟨["m1"], []⟩ ⟨0, 0⟩
      ∧ calculateTraitConfidence expStubOne ⟨["m1"], []⟩ ⟨0, 0⟩ ≤ 1 :=
  trait_confidence_unclamped_bounds expStubOne ⟨["m1"], []⟩ ⟨0, 0⟩ (by norm_num) (by norm_num)
    (by norm_num [expStubOne]) (by norm_num [expStubOne])

/-- `needle` is a prefix of the list. -/
def startsWithChars : List Char → List Char → Bool
  | [], _ => true
  | _ :: _, [] => false
  | a :: as, b :: bs => a == b && startsWithChars as bs

/-- Substring containment, scanning every suffix. -/
def containsChars (needle : List Char) : List Char → Bool
  | [] => needle.isEmpty
  | c :: rest => startsWithChars needle (c :: rest) || containsChars needle rest

/-- `hay.find(needle) != std::string::npos` (persona_system.cpp:441). -/
def strFindSub (hay needle : String) : Bool := containsChars needle.toList hay.toList

/-- `s.substr(pos)` (persona_system.cpp:442). -/
def strSubstrFrom (s : String) (pos : Nat) : String := String.mk (s.toList.drop pos)

/-- `TraitEvolution` (persona types): the fields `UpdateTrait` reads/writes. -/
structure TraitEvolution where
  CurrentValue : ℚ
  BaseValue : ℚ
  DecayRate : ℚ
  ReinforcementRate : ℚ
  Evidence : List String
  LastUpdated : ℤ
deriving DecidableEq

/-- The active persona's `Personality` slice used by `UpdateTrait`,
`PropagateTraitInfluence` and `AddTraitCorrelation`. -/
structure Personality where
  CoreTraits : List (String × TraitEvolution)
  DerivedTraits : List (String × TraitEvolution)
  TraitCorrelations : List (String × ℚ)
deriving DecidableEq

/-- The local mutation of `UpdateTrait` (persona_system.cpp:314-328): decay by
`exp(-decayRate * daysSinceUpdate)` (days = truncated hours / 24), add
`influence * reinforcementRate`, clamp to [0,1], push the evidence, stamp
`LastUpdated = now`. -/
def applyTraitUpdate (E : ℚ → ℚ) (now : ℤ) (influence : ℚ) (ev : String)
    (t : TraitEvolution) : TraitEvolution :=
  let timeSinceUpdate : ℚ := (hoursBetween now t.LastUpdated : ℚ) / 24
  let decayFactor := E (-t.DecayRate * timeSinceUpdate)
  { t with
    CurrentValue := min 1 (max 0 (t.CurrentValue * decayFactor + influence * t.ReinforcementRate))
    Evidence := t.Evidence ++ [ev]
    LastUpdated := now }

/-- One call of `UpdateTrait` (persona_system.cpp:295-332) with the recursive
continuation `rec` abstracted: the external `db_.SaveTrait` write has no
in-memory effect; an unseen trait name (neither core nor derived) returns with
no mutation; otherwise the trait is updated in its map and
`PropagateTraitInfluence` (persona_system.cpp:436-446) walks the correlation
table, and for every key *containing* the trait name as a substring calls
`UpdateTrait(key.substr(name.length()+1), influence * correlation,
"correlated_trait")` recursively — `rec` is that recursive call. -/
def updateTraitStep (rec : String → ℚ → String → Personality → Personality)
    (E : ℚ → ℚ) (now : ℤ) (name : String) (influence : ℚ) (ev : String)
    (p : Personality) : Personality :=
  match lookupKey p.CoreTraits name with
  | some t =>
    let p' := { p with
      CoreTraits := setKey p.CoreTraits name (applyTraitUpdate E now influence ev t) }
    p'.TraitCorrelations.foldl (fun acc kc =>
      if strFindSub kc.1 name then
        rec (strSubstrFrom kc.1 (name.length + 1)) (influence * kc.2) "correlated_trait" acc
      else acc) p'
  | none =>
    match lookupKey p.DerivedTraits name with
    | some t =>
      let p' := { p with
        DerivedTraits := setKey p.DerivedTraits name (applyTraitUpdate E now influence ev t) }
      p'.TraitCorrelations.foldl (fun acc kc =>
        if strFindSub kc.1 name then
          rec (strSubstrFrom kc.1 (name.length + 1)) (influence * kc.2) "correlated_trait" acc
        else acc) p'
    | none => p

/-- Fuel-indexed unfolding of the mutually recursive pair `UpdateTrait` /
`PropagateTraitInfluence`.  The C++ recursion carries no depth bound at all
(with any correlation key whose extracted partner trait exists it never
terminates); fuel 0 is the explicit cut-off of this embedding, and every
theorem below holds for all fuel values above the stated bound. -/
def updateTrait (E : ℚ → ℚ) (now : ℤ) : Nat → String → ℚ → String → Personality → Personality
  | 0, _, _, _, p => p
  | f + 1, name, influence, ev, p => updateTraitStep (updateTrait E now f) E now name influence ev p

def emptyPersonality : Personality := ⟨[], [], []⟩

def traitC3 : TraitEvolution :=
  { CurrentValue := 1 / 2, BaseValue := 1 / 2, DecayRate := 1 / 10,
    ReinforcementRate := 1 / 2, Evidence := [], LastUpdated := 0 }

def persC3 : Personality := ⟨[("warmth", traitC3)], [], []⟩

/-- C3 counterexample, both discrepancies at concrete inputs: (a) influencing
the unseen trait "warmth" on an empty personality is a no-op — no baseline
with currentValue 0 is created; (b) influencing an existing trait (value 0.5,
reinforcementRate 0.5, no elapsed time) by 0.4 yields `0.5 + 0.4*0.5 = 0.7`,
not the claimed `0.5 + 0.4 = 0.9` — the amount is scaled by the
reinforcement rate before being added. -/
theorem trait_influence_claim_counterexample :
    (updateTrait expStubOne 0 5 "warmth" (1 / 2) "kind_act" emptyPersonality = emptyPersonality
        ∧ lookupKey emptyPersonality.CoreTraits "warmth" = none)
      ∧ ((lookupKey (updateTrait expStubOne 0 5 "warmth" (2 / 5) "kind_act" persC3).CoreTraits
            "warmth").map TraitEvolution.CurrentValue = some (7 / 10)
        ∧ (7 / 10 : ℚ) ≠ 1 / 2 + 2 / 5) := by
  refine ⟨⟨rfl, rfl⟩, ?_, by norm_num⟩
  norm_num [updateTrait, updateTraitStep, applyTraitUpdate, lookupKey, setKey, persC3,
    traitC3, expStubOne, hoursBetween]

/-- C3 (amended): for a trait present in `CoreTraits`, `Influence` multiplies
the current value by `exp(-decayRate * days)` with `days` the truncated hours
since `LastUpdated` divided by 24, adds `amount * reinforcementRate`, clamps
to [0,1], appends the evidence and stamps `LastUpdated = now` (here with an
empty correlation table, so no propagation fires); a trait name found in
neither `CoreTraits` nor `DerivedTraits` leaves the personality unchanged — no
baseline is created. -/
theorem trait_influence_reinforcement_semantics (E : ℚ → ℚ) (now : ℤ) (f : Nat)
    (name : String) (amt : ℚ) (ev : String) (p : Personality)
    (hcorr : p.TraitCorrelations = []) :
    (∀ t, lookupKey p.CoreTraits name = some t →
      updateTrait E now (f + 1) name amt ev p
        = { p with
            CoreTraits :=
              setKey p.CoreTraits name
                ({ t with
                   CurrentValue := min 1 (max 0
                     (t.CurrentValue
                        * E (-t.DecayRate * ((hoursBetween now t.LastUpdated : ℚ) / 24))
                       + amt * t.ReinforcementRate))
                   Evidence := t.Evidence ++ [ev]
                   LastUpdated := now }) })
      ∧ (lookupKey p.CoreTraits name = none → lookupKey p.DerivedTraits name = none →
        updateTrait E now (f + 1) name amt ev p = p) := by
  constructor
  · intro t ht
    simp only [updateTrait, updateTraitStep, ht]
    rw [show ({ p with CoreTraits := setKey p.CoreTraits name (applyTraitUpdate E now amt ev t) }
        : Personality).TraitCorrelations = p.TraitCorrelations from rfl, hcorr]
    simp [applyTraitUpdate]
  · intro h1 h2
    simp only [updateTrait, updateTraitStep, h1, h2]

/-- Witness for C3's amended theorem at the concrete personality `persC3`. -/
theorem trait_influence_reinforcement_semantics_witness :
    updateTrait expStubOne 0 1 "warmth" (2 / 5) "kind_act" persC3
      = ⟨[("warmth",
          { CurrentValue := 7 / 10, BaseValue := 1 / 2, DecayRate := 1 / 10,
            ReinforcementRate := 1 / 2, Evidence := ["kind_act"], LastUpdated := 0 })], [], []⟩ := by
  have h := (trait_influence_reinforcement_semantics expStubOne 0 0 "warmth" (2 / 5) "kind_act"
    persC3 rfl).1 traitC3 rfl
  rw [h]
  norm_num [persC3, traitC3, setKey, expStubOne, hoursBetween]

/-- Number of `"correlated_trait"` evidence entries on a core trait: each one
records one secondary `Influence` received through propagation. -/
def ctCount (p : Personality) (name : String) : Nat :=
  match lookupKey p.CoreTraits name with
  | some t => t.Evidence.count "correlated_trait"
  | none => 0

/-- Two core traits `a`, `b` and the single correlation entry `"a_b"`. -/
def twoTraitP (ta tb : TraitEvolution) (co : ℚ) : Personality :=
  { CoreTraits := [("a", ta), ("b", tb)], DerivedTraits := [],
    TraitCorrelations := [("a_b", co)] }

lemma selfCorr_chain (E : ℚ → ℚ) (now : ℤ) (co : ℚ) :
    ∀ (k : Nat) (ta tb : TraitEvolution) (amt : ℚ),
      ctCount (updateTrait E now k "b" amt "correlated_trait" (twoTraitP ta tb co)) "b"
        = ctCount (twoTraitP ta tb co) "b" + k := by
  intro k
  induction k with
  | zero => intro ta tb amt; simp [updateTrait]
  | succ k ih =>
    intro ta tb amt
    have hlook : lookupKey (twoTraitP ta tb co).CoreTraits "b" = some tb := by
      simp [twoTraitP, lookupKey]
    have hfind : strFindSub "a_b" "b" = true := by decide
    have hsubstr : strSubstrFrom "a_b" ("b".length + 1) = "b" := by decide
    have hsubstr2 : strSubstrFrom "a_b" 2 = "b" := by decide
    have hstep :
        updateTrait E now (k + 1) "b" amt "correlated_trait" (twoTraitP ta tb co)
          = updateTrait E now k "b" (amt * co) "correlated_trait"
              (twoTraitP ta (applyTraitUpdate E now amt "correlated_trait" tb) co) := by
      simp [updateTrait, updateTraitStep, hlook, twoTraitP, setKey, lookupKey, hfind,
        hsubstr, hsubstr2]
    rw [hstep, ih ta (applyTraitUpdate E now amt "correlated_trait" tb) (amt * co)]
    have hc1 : ctCount (twoTraitP ta (applyTraitUpdate E now amt "correlated_trait" tb) co) "b"
        = ctCount (twoTraitP ta tb co) "b" + 1 := by
      simp [ctCount, twoTraitP, lookupKey, applyTraitUpdate, List.count_append]
    rw [hc1]
    omega

/-- C4 (amended): propagation does not stop after one hop.  With a single
correlation entry `a_b` and both traits present, an `Influence` on `a` first
gives `b` one secondary influence of `amount * correlation` tagged
`"correlated_trait"`, but because the propagated call is a full `UpdateTrait`
— and `"a_b"` contains `"b"`, with `key.substr(len+1)` yielding `"b"` again —
the recursion keeps re-influencing `b`: within any recursion budget `f + 2`
the trait `b` accumulates `f + 1` secondary influences, one per available
level (the C++ recursion itself never terminates on this input). -/
theorem trait_propagation_recursive_chaining (E : ℚ → ℚ) (now : ℤ) (co amt : ℚ) (ev : String)
    (f : Nat) (ta tb : TraitEvolution) :
    ctCount (updateTrait E now (f + 2) "a" amt ev (twoTraitP ta tb co)) "b"
      = ctCount (twoTraitP ta tb co) "b" + (f + 1) := by
  have hlook : lookupKey (twoTraitP ta tb co).CoreTraits "a" = some ta := by
    simp [twoTraitP, lookupKey]
  have hfind : strFindSub "a_b" "a" = true := by decide
  have hsubstr : strSubstrFrom "a_b" ("a".length + 1) = "b" := by decide
  have hsubstr2 : strSubstrFrom "a_b" 2 = "b" := by decide
  have hone : updateTrait E now (f + 2) "a" amt ev (twoTraitP ta tb co)
      = updateTraitStep (updateTrait E now (f + 1)) E now "a" amt ev (twoTraitP ta tb co) := rfl
  have htwo : updateTraitStep (updateTrait E now (f + 1)) E now "a" amt ev (twoTraitP ta tb co)
      = updateTrait E now (f + 1) "b" (amt * co) "correlated_trait"
          (twoTraitP (applyTraitUpdate E now amt ev ta) tb co) := by
    simp [updateTraitStep, hlook, twoTraitP, setKey, lookupKey, hfind, hsubstr, hsubstr2]
  rw [hone, htwo,
    selfCorr_chain E now co (f + 1) (applyTraitUpdate E now amt ev ta) tb (amt * co)]
  simp [ctCount, twoTraitP, lookupKey]

def traitA4 : TraitEvolution :=
  { CurrentValue := 1 / 2, BaseValue := 1 / 2, DecayRate := 1 / 10,
    ReinforcementRate := 1 / 2, Evidence := [], LastUpdated := 0 }

def traitB4 : TraitEvolution :=
  { CurrentValue := 3 / 10, BaseValue := 3 / 10, DecayRate := 1 / 10,
    ReinforcementRate := 1 / 2, Evidence := [], LastUpdated := 0 }

def persC4 : Personality := twoTraitP traitA4 traitB4 (1 / 2)

/-- C4 counterexample: correlation table `{"a_b": 0.5}`, both traits present.
Influencing `a` (recursion budget 4) appends three `"correlated_trait"`
evidence entries to `b`, refuting "exactly one secondary Influence … and the
propagation stops there". -/
theorem trait_propagation_single_hop_counterexample :
    ctCount (updateTrait expStubOne 0 4 "a" 1 "direct_evidence" persC4) "b" = 3
      ∧ (3 : Nat) ≠ 1 := by
  refine ⟨?_, by norm_num⟩
  have hfa : strFindSub "a_b" "a" = true := by decide
  have hfb : strFindSub "a_b" "b" = true := by decide
  have hsa : strSubstrFrom "a_b" ("a".length + 1) = "b" := by decide
  have hsb : strSubstrFrom "a_b" ("b".length + 1) = "b" := by decide
  have hs2 : strSubstrFrom "a_b" 2 = "b" := by decide
  have hne : ("a" : String) ≠ "b" := by decide
  norm_num [updateTrait, updateTraitStep, applyTraitUpdate, lookupKey, setKey, ctCount,
    twoTraitP, persC4, traitA4, traitB4, expStubOne, hoursBetween, hfa, hfb, hsa, hsb, hs2,
    hne, List.count_append]

/-- Member `UpdateEmotionalPatterns()` (memory.cpp:1126-1140): recompute each
growth pattern's strength as the sum of the emotional weights of the stored
memories listed in its `TriggeringEvents`, divided by the trigger count (the
C++ double division is undefined-ish for an empty trigger list; `ℚ` yields 0
there — no claim depends on that edge).  `ActiveResonances` is not touched. -/
def growthTick (st : MMState) (gp : GrowthPattern) : GrowthPattern :=
  let newIntensity := st.memories.foldl
    (fun acc km =>
      if km.2.id ∈ gp.TriggeringEvents then acc + km.2.emotional_weight else acc) 0
  { gp with Strength := newIntensity / (gp.TriggeringEvents.length : ℚ) }

def updateEmotionalPatternsMember (st : MMState) : MMState :=
  if !st.inited then st
  else
    { st with context :=
        { st.context with GrowthPatterns := st.context.GrowthPatterns.map (growthTick st) } }

/-- Member `ProcessEmotionalResonance(trigger, intensity)`
(memory.cpp:1102-1124): throws when uninitialized; otherwise constructs a
resonance as a local value — never appended to `ActiveResonances` or any other
collection — then runs the member `UpdateEmotionalPatterns()` and
`UpdateMemoryWeightsWithEmotion()`. -/
def processEmotionalResonanceMember (dbOk : Bool) (trigger : String) (intensity : ℚ)
    (now : ℤ) (st : MMState) : Except String MMState :=
  if !st.inited then Except.error "MemoryManager not initialized"
  else
    let _localResonance : EmotionalResonance :=
      { Trigger := trigger, Intensity := intensity, Duration := 0, StartTime := now,
        PeakTime := now, AssociatedMemories := [] }
    Except.ok (updateMemoryWeightsWithEmotion dbOk (updateEmotionalPatternsMember st))

lemma umweStep_resonances (dbOk : Bool) (st : MMState) (k : String) :
    (umweStep dbOk st k).context.ActiveResonances = st.context.ActiveResonances := by
  unfold umweStep
  cases h : lookupKey st.memories k with
  | none => rfl
  | some m => cases dbOk <;> simp [updateMemoryClusterFn, updateMemoryIndexEntry]

lemma umwe_fold_resonances (dbOk : Bool) : ∀ (ks : List String) (st : MMState),
    (ks.foldl (umweStep dbOk) st).context.ActiveResonances = st.context.ActiveResonances := by
  intro ks
  induction ks with
  | nil => intro st; rfl
  | cons k rest ih => intro st; rw [List.foldl_cons, ih, umweStep_resonances]

lemma umwe_resonances (dbOk : Bool) (st : MMState) :
    (updateMemoryWeightsWithEmotion dbOk st).context.ActiveResonances
      = st.context.ActiveResonances := by
  unfold updateMemoryWeightsWithEmotion
  cases h : st.inited with
  | false => simp
  | true => simp only [Bool.not_true, Bool.false_eq_true, if_false]
            exact umwe_fold_resonances dbOk _ st

lemma uepm_resonances (st : MMState) :
    (updateEmotionalPatternsMember st).context.ActiveResonances
      = st.context.ActiveResonances := by
  unfold updateEmotionalPatternsMember
  cases h : st.inited <;> simp

/-- C10: for every trigger string and intensity, the member
`ProcessEmotionalResonance` leaves the stored set of active resonances
unchanged — the resonance it constructs is a local value that is never
appended to any collection, so no later tick can observe, decay, or promote
it. -/
theorem member_resonance_frame_preservation (dbOk : Bool) (trigger : String) (intensity : ℚ)
    (now : ℤ) (st st' : MMState)
    (h : processEmotionalResonanceMember dbOk trigger intensity now st = Except.ok st') :
    st'.context.ActiveResonances = st.context.ActiveResonances := by
  unfold processEmotionalResonanceMember at h
  cases hin : st.inited with
  | false => rw [hin] at h; simp at h
  | true =>
    rw [hin] at h
    simp only [Bool.not_true, Bool.false_eq_true, if_false, Except.ok.injEq] at h
    rw [← h, umwe_resonances, uepm_resonances]

def stC10 : MMState :=
  { inited := true, memories := [("m1", memC2)], memory_cache := [], maxCacheSize := 1000,
    context := { emptyContext with
      ActiveResonances := [resonance9],
      GrowthPatterns := [{ TriggeringEvents := ["m1"], Strength := 0 }] } }

/-- Witness for C10 at a concrete state holding one active resonance, one
stored memory and one growth pattern. -/
theorem member_resonance_frame_preservation_witness :
    (updateMemoryWeightsWithEmotion true
        (updateEmotionalPatternsMember stC10)).context.ActiveResonances
      = stC10.context.ActiveResonances :=
  member_resonance_frame_preservation true "joy" (1 / 2) 0 stC10 _ rfl
